import Mathlib

/-!
Verification development for the job-exposure dashboard (`app.py`).

The program is a single-script dashboard: it loads a CSV of job titles
with automation-exposure scores (`load_and_clean_data`), filters the
normalized table by two categorical selections (`filtered_df`), derives
three chart tables (`top_10_df` via `nlargest`, `exposure_counts` via
`value_counts`, and the pass-through scatter set), and runs a chat box
whose answer comes from an external client call guarded by `try/except`.

Cells are modelled as `List Char`; the dataframe becomes a `List` of
rows.  Pandas library calls are embedded by their documented semantics:
`str.strip` / `str.replace('^"|"$', ...)` as whitespace trimming plus
end-anchored quote stripping, `pd.to_numeric(errors='coerce')` as a
decimal parser into `Option ℚ`, `dropna` as `filterMap`, `nlargest(10)`
as a stable descending sort (realized by sorting index-tagged rows)
followed by `take 10`, and `value_counts` as first-appearance distinct
values with counts sorted by descending count.
-/

namespace Ilo

/-- Embeds Python `str.strip()`: remove leading and trailing whitespace. -/
def pyStrip (cs : List Char) : List Char :=
  ((cs.dropWhile Char.isWhitespace).reverse.dropWhile Char.isWhitespace).reverse

/-- Remove a single leading `"` character if present. -/
def dropLeadQuote : List Char → List Char
  | '"' :: cs => cs
  | cs => cs

/-- Embeds `str.replace('^"|"$', '', regex=True)` on a cell: strip one
leading and one trailing quote, anchored to the ends. -/
def stripQuotes (cs : List Char) : List Char :=
  ((dropLeadQuote cs).reverse |> dropLeadQuote).reverse

/-- The per-cell string cleaning of `load_and_clean_data` (line 40):
`df[col].str.strip().str.replace('^"|"$', '', regex=True)`. -/
def cleanCell (cs : List Char) : List Char :=
  stripQuotes (pyStrip cs)

/-- Value of a digit string, most significant first. -/
def digitsVal (ds : List Char) : ℕ :=
  ds.foldl (fun a c => 10 * a + (c.toNat - 48)) 0

/-- Parse an unsigned decimal numeral (optional fractional part). -/
def parseUnsigned (cs : List Char) : Option ℚ :=
  let intPart := cs.takeWhile Char.isDigit
  let rest := cs.dropWhile Char.isDigit
  match rest with
  | [] => if intPart.isEmpty then none else some (digitsVal intPart)
  | '.' :: frac =>
      if frac.all Char.isDigit && !(intPart.isEmpty && frac.isEmpty) then
        some ((digitsVal intPart : ℚ) + (digitsVal frac : ℚ) / ((10 : ℚ) ^ frac.length))
      else none
  | _ => none

/-- Embeds `pd.to_numeric(_, errors='coerce')` on one cell: a signed
decimal numeral parses to a rational, anything else becomes missing
(`none`, i.e. NaN). -/
def parseNum (cs : List Char) : Option ℚ :=
  match cs with
  | '-' :: rest => (parseUnsigned rest).map Neg.neg
  | '+' :: rest => parseUnsigned rest
  | _ => parseUnsigned cs

/-- One raw CSV row (all cells are text, as read from the file). -/
structure RawRow where
  jobTitle : List Char
  majorGroups : List Char
  meanExposureLevel : List Char
  averageScore : List Char
  standardDeviation : List Char
deriving DecidableEq, Repr

/-- One row of the normalized dataset: string cells cleaned, the two
numeric columns coerced. -/
structure Record where
  jobTitle : List Char
  majorGroups : List Char
  meanExposureLevel : List Char
  averageScore : ℚ
  standardDeviation : ℚ
deriving DecidableEq, Repr

instance : Inhabited Record := ⟨⟨[], [], [], 0, 0⟩⟩

/-- Clean the cells of one raw row and coerce the two numeric columns;
`none` when either numeric cell fails coercion (the row's NaN marker). -/
def coerceRow (r : RawRow) : Option Record :=
  match parseNum (cleanCell r.averageScore), parseNum (cleanCell r.standardDeviation) with
  | some a, some s =>
      some ⟨cleanCell r.jobTitle, cleanCell r.majorGroups,
            cleanCell r.meanExposureLevel, a, s⟩
  | _, _ => none

/-- Embeds `load_and_clean_data` (lines 32-49): clean every string cell,
coerce `Average score` and `Standard deviation` to numeric with
`errors='coerce'`, and drop the rows where either coercion failed
(`dropna(subset=['Average score', 'Standard deviation'])`). -/
def load_and_clean_data (raws : List RawRow) : List Record :=
  raws.filterMap coerceRow

/-- A raw row passes the numeric-coercion gate: both numeric cells parse
after the cleaning step. -/
def bothNumeric (r : RawRow) : Bool :=
  (parseNum (cleanCell r.averageScore)).isSome &&
  (parseNum (cleanCell r.standardDeviation)).isSome

/-- The record produced from a raw row that passes the gate. -/
def recOf (r : RawRow) : Record :=
  (coerceRow r).getD default

/-- Re-clean the string cells of an already-typed record.  This is what
a second run of `load_and_clean_data` does to the normalized table: the
numeric columns are no longer `object`-typed so the string cleaning
skips them (line 39), `to_numeric` is the identity on them, and `dropna`
drops nothing. -/
def cleanRecord (r : Record) : Record :=
  ⟨cleanCell r.jobTitle, cleanCell r.majorGroups,
   cleanCell r.meanExposureLevel, r.averageScore, r.standardDeviation⟩

/-- The pipeline `load_and_clean_data` re-applied to its own (typed)
output. -/
def normalizeTyped (recs : List Record) : List Record :=
  recs.map cleanRecord

/-- Embeds the sidebar filtering (lines 70-74): a selection is `none`
for `'All'` or `some v` for an exact-match value; the major-group filter
is applied first, then the exposure-level filter. -/
def filtered_df (d : List Record) (selGroup selExposure : Option (List Char)) :
    List Record :=
  let d1 := match selGroup with
    | none => d
    | some g => d.filter (fun r => r.majorGroups = g)
  match selExposure with
  | none => d1
  | some e => d1.filter (fun r => r.meanExposureLevel = e)

/-- The order realizing `nlargest` on index-tagged rows: larger
`Average score` first, ties by smaller original index first (pandas
`keep='first'`, i.e. a stable descending sort). -/
def scoreKey (p q : ℕ × Record) : Prop :=
  q.2.averageScore < p.2.averageScore ∨
    (p.2.averageScore = q.2.averageScore ∧ p.1 ≤ q.1)

instance instDecScoreKey : DecidableRel scoreKey := fun p q =>
  inferInstanceAs (Decidable (q.2.averageScore < p.2.averageScore ∨
    (p.2.averageScore = q.2.averageScore ∧ p.1 ≤ q.1)))

instance instTotalScoreKey : IsTotal (ℕ × Record) scoreKey := by
  constructor
  intro a b
  rcases lt_trichotomy a.2.averageScore b.2.averageScore with h | h | h
  · exact Or.inr (Or.inl h)
  · rcases Nat.le_total a.1 b.1 with hn | hn
    · exact Or.inl (Or.inr ⟨h, hn⟩)
    · exact Or.inr (Or.inr ⟨h.symm, hn⟩)
  · exact Or.inl (Or.inl h)

instance instTransScoreKey : IsTrans (ℕ × Record) scoreKey := by
  constructor
  intro a b c hab hbc
  rcases hab with hab | ⟨hab, hab'⟩ <;> rcases hbc with hbc | ⟨hbc, hbc'⟩
  · exact Or.inl (hbc.trans hab)
  · exact Or.inl (hbc ▸ hab)
  · exact Or.inl (lt_of_lt_of_le hbc (le_of_eq hab.symm))
  · exact Or.inr ⟨hab.trans hbc, hab'.trans hbc'⟩

/-- The index-tagged top-10 table: index-tagged rows of the view sorted
by `scoreKey`, first 10 kept. -/
def top_10_idx (view : List Record) : List (ℕ × Record) :=
  (List.insertionSort scoreKey view.enum).take 10

/-- Embeds `filtered_df.nlargest(10, 'Average score')` (line 82): the
first 10 rows of the view stably sorted by descending `Average score`
(pandas documents `nlargest(n, c)` as equivalent to
`sort_values(c, ascending=False).head(n)` with `keep='first'`; index
tagging makes that stable order total, so any correct sort realizes
it). -/
def top_10_df (view : List Record) : List Record :=
  (top_10_idx view).map Prod.snd

/-- Number of rows of the view carrying a given exposure level. -/
def countLevel (view : List Record) (v : List Char) : ℕ :=
  (view.filter (fun r => r.meanExposureLevel = v)).length

/-- Distinct exposure levels of the view, in order of first appearance. -/
def distinctLevels (view : List Record) : List (List Char) :=
  view.foldl
    (fun acc r =>
      if r.meanExposureLevel ∈ acc then acc else acc ++ [r.meanExposureLevel])
    []

/-- Embeds `filtered_df['mean_exposure_level'].value_counts()`
(line 105): each distinct exposure level with its row count, sorted by
descending count. -/
def exposure_counts (view : List Record) : List (List Char × ℕ) :=
  List.insertionSort (fun p q => q.2 ≤ p.2)
    ((distinctLevels view).map (fun v => (v, countLevel view v)))

/-- Embeds the scatter-plot input (lines 120-129): the full filtered
view passed through with its plotted fields. -/
def scatter_set (view : List Record) : List (ℚ × ℚ × List Char × List Char × List Char) :=
  view.map (fun r =>
    (r.averageScore, r.standardDeviation,
     r.meanExposureLevel, r.jobTitle, r.majorGroups))

/-- One chat turn, as appended on lines 161 and 164:
`{"id": ..., "query": user_query, "answer": answer}`. -/
structure ChatTurn where
  id : List Char
  query : List Char
  answer : List Char
deriving DecidableEq, Repr

/-- Render a record as a line of text (model of one row of pandas
`DataFrame.to_string()`). -/
def renderRecord (r : Record) : List Char :=
  r.jobTitle ++ ' ' :: r.majorGroups ++ ' ' :: r.meanExposureLevel ++
    ' ' :: (Nat.toDigits 10 r.averageScore.num.natAbs ++
      '/' :: Nat.toDigits 10 r.averageScore.den) ++
    ' ' :: (Nat.toDigits 10 r.standardDeviation.num.natAbs ++
      '/' :: Nat.toDigits 10 r.standardDeviation.den)

/-- Render a list of records as text (model of `DataFrame.to_string()`). -/
def renderRows (recs : List Record) : List Char :=
  recs.foldr (fun r acc => '\n' :: renderRecord r ++ acc) []

/-- The fixed dataset-description preamble of the context f-string
(lines 149-151), up to the interpolated sample rows. -/
def contextPreamble : List Char :=
  "\n    The dataset contains job titles with their major groups, average scores (0 to 1, higher means more automation exposure), mean exposure levels (e.g., 'Highest exposure, low task variability (gradient 4)'), and standard deviations. Here are some sample rows:\n    ".data

/-- The fixed text between the sample rows and the user query. -/
def questionLabel : List Char :=
  "\n    User question: ".data

/-- The fixed text after the user query. -/
def contextTail : List Char :=
  "\n    ".data

/-- Embeds the context construction (lines 149-153): preamble, then
`df.head(5).to_string()` — the first 5 rows of the FULL normalized
dataset `df`, not of `filtered_df` — then the literal user query. -/
def buildContext (d : List Record) (q : List Char) : List Char :=
  contextPreamble ++ renderRows (d.take 5) ++ questionLabel ++ q ++ contextTail

/-- The fixed error-message head of line 163
(`f"Error contacting Grok: {str(e)}"`). -/
def errMsgHead : List Char :=
  "Error contacting Grok: ".data

/-- Embeds the chat submission block (lines 146-164).  The answering
capability is a function into `Except`: `.ok` models a normal return of
the client call, `.error e` models any raised exception whose `str` is
`e`.  An empty query fails the `if user_query:` guard and nothing
happens; otherwise the call is made inside `try/except` and a turn is
appended on both the success and the failure path, so the function is
total — no error escapes it. -/
def submitQuery (svc : List Char → Except (List Char) (List Char))
    (d : List Record) (freshId : List Char)
    (history : List ChatTurn) (q : List Char) : List ChatTurn :=
  if q = [] then history
  else
    match svc (buildContext d q) with
    | .ok ans => history ++ [⟨freshId, q, ans⟩]
    | .error e => history ++ [⟨freshId, q, errMsgHead ++ e⟩]

/-- The chat section as it sits in the script: it runs after the filter
selections exist, but builds its context from the full normalized
dataset `df` (line 151); the selections are dead inputs here. -/
def chatAfterFilters (raws : List RawRow)
    (selGroup selExposure : Option (List Char))
    (svc : List Char → Except (List Char) (List Char))
    (freshId : List Char) (history : List ChatTurn) (q : List Char) :
    List ChatTurn :=
  submitQuery svc (load_and_clean_data raws) freshId history q

/-- A record whose three string cells are already clean at both ends:
neither begins nor ends with whitespace or a quote character. -/
def goodEnd : Option Char → Bool
  | none => true
  | some c => !c.isWhitespace && !(c == '"')

/-- The string cell is unchanged by a further cleaning pass. -/
def cleanFixed (cs : List Char) : Bool :=
  goodEnd cs.head? && goodEnd cs.getLast?

/-- All three string cells of the record are clean-stable. -/
def cleanFixedRecord (r : Record) : Bool :=
  cleanFixed r.jobTitle && cleanFixed r.majorGroups && cleanFixed r.meanExposureLevel

/-- Sample records for concrete instantiations. -/
def recA : Record := ⟨"a".data, "g".data, "e".data, 3, 1⟩

def recB : Record := ⟨"b".data, "g".data, "e".data, 9, 1⟩

/-- A raw row whose group cell is doubly quoted: `""x""`. -/
def rawQ : RawRow := ⟨"t".data, "\"\"x\"\"".data, "g".data, "5".data, "1".data⟩

/-- Raw rows whose group cell is `"Engineer"`, ` Engineer `, `Engineer`. -/
def rawEng1 : RawRow := ⟨"t1".data, "\"Engineer\"".data, "g".data, "5".data, "1".data⟩

def rawEng2 : RawRow := ⟨"t2".data, " Engineer ".data, "g".data, "5".data, "1".data⟩

def rawEng3 : RawRow := ⟨"t3".data, "Engineer".data, "g".data, "5".data, "1".data⟩

/-- A sample resolved chat turn. -/
def turn0 : ChatTurn := ⟨"id0".data, "q0".data, "a0".data⟩

/-! ## Helper lemmas -/

lemma coerceRow_isSome (r : RawRow) : (coerceRow r).isSome = bothNumeric r := by
  unfold coerceRow bothNumeric
  cases parseNum (cleanCell r.averageScore) <;>
    cases parseNum (cleanCell r.standardDeviation) <;> simp

lemma load_eq_filter_map (raws : List RawRow) :
    load_and_clean_data raws = (raws.filter bothNumeric).map recOf := by
  induction raws with
  | nil => rfl
  | cons r t ih =>
    unfold load_and_clean_data at ih ⊢
    rw [List.filterMap_cons, List.filter_cons]
    cases h : coerceRow r with
    | none =>
      have hb : bothNumeric r = false := by rw [← coerceRow_isSome, h]; rfl
      simp [hb, ih]
    | some rec =>
      have hb : bothNumeric r = true := by rw [← coerceRow_isSome, h]; rfl
      simp [hb, ih, recOf, h]

lemma length_filter_split (p : RawRow → Bool) (l : List RawRow) :
    (l.filter p).length + (l.filter (fun r => !(p r))).length = l.length := by
  induction l with
  | nil => rfl
  | cons r t ih =>
    by_cases h : p r <;> simp [List.filter_cons, h] <;> omega

/-! ## Claim theorems -/

/-- C2: the normalize operation retains a row if and only if both the
`Average score` and `Standard deviation` cells parse as numeric after
the cleaning step — the retained rows are exactly the image, in order,
of the rows passing `bothNumeric` — and the retained row count equals
the input row count minus the number of rows with at least one
malformed numeric cell. -/
theorem c2_numeric_row_drop (raws : List RawRow) :
    load_and_clean_data raws = (raws.filter bothNumeric).map recOf ∧
    (load_and_clean_data raws).length
        = raws.length - (raws.filter (fun r => !(bothNumeric r))).length := by
  refine ⟨load_eq_filter_map raws, ?_⟩
  rw [load_eq_filter_map, List.length_map]
  have h := length_filter_split bothNumeric raws
  omega

/-- C10: normalization preserves the relative order of the raw rows:
the normalized dataset is the row-wise image of an order-preserving
sublist of the input (row-dropping removes elements, never reorders). -/
theorem c10_order_preserved (raws : List RawRow) :
    List.Sublist (raws.filter bothNumeric) raws ∧
    load_and_clean_data raws = (raws.filter bothNumeric).map recOf :=
  ⟨List.filter_sublist raws, load_eq_filter_map raws⟩

/-- C4: applying the major-group filter and then the exposure-level
filter (in either order) yields the same result as applying both
constraints together, and the joint filter is the logical AND of the
two equality constraints. -/
theorem c4_filter_composition (d : List Record) (A B : List Char) :
    filtered_df (filtered_df d (some A) none) none (some B)
        = filtered_df d (some A) (some B) ∧
    filtered_df (filtered_df d none (some B)) (some A) none
        = filtered_df d (some A) (some B) ∧
    filtered_df d (some A) (some B)
        = d.filter (fun r =>
            decide (r.majorGroups = A) && decide (r.meanExposureLevel = B)) := by
  refine ⟨rfl, ?_, ?_⟩
  · show List.filter (fun r => decide (r.majorGroups = A))
        (List.filter (fun r => decide (r.meanExposureLevel = B)) d)
      = List.filter (fun r => decide (r.meanExposureLevel = B))
          (List.filter (fun r => decide (r.majorGroups = A)) d)
    rw [List.filter_filter, List.filter_filter]
    exact List.filter_congr (fun r _ => Bool.and_comm _ _)
  · show List.filter (fun r => decide (r.meanExposureLevel = B))
        (List.filter (fun r => decide (r.majorGroups = A)) d)
      = List.filter (fun r =>
          decide (r.majorGroups = A) && decide (r.meanExposureLevel = B)) d
    rw [List.filter_filter]
    exact List.filter_congr (fun r _ => Bool.and_comm _ _)

/-- C7: filtering by a value absent from the dataset yields an empty
view rather than an error, and on the empty view all three derivations
(top-10 ranking, exposure-level frequency counts, correlation scatter
set) return an empty result of the appropriate shape. -/
theorem c7_empty_selection (d : List Record) (v w : List Char)
    (hv : v ∉ d.map (fun r => r.majorGroups))
    (hw : w ∉ d.map (fun r => r.meanExposureLevel)) :
    filtered_df d (some v) none = [] ∧
    filtered_df d none (some w) = [] ∧
    top_10_df (filtered_df d (some v) none) = [] ∧
    exposure_counts (filtered_df d (some v) none) = [] ∧
    scatter_set (filtered_df d (some v) none) = [] := by
  have h1 : filtered_df d (some v) none = [] := by
    unfold filtered_df
    rw [List.filter_eq_nil_iff]
    intro r hr
    simp only [decide_eq_true_eq]
    intro heq
    exact hv (List.mem_map.mpr ⟨r, hr, heq⟩)
  have h2 : filtered_df d none (some w) = [] := by
    unfold filtered_df
    rw [List.filter_eq_nil_iff]
    intro r hr
    simp only [decide_eq_true_eq]
    intro heq
    exact hw (List.mem_map.mpr ⟨r, hr, heq⟩)
  rw [h1, h2]
  exact ⟨rfl, rfl, rfl, rfl, rfl⟩

/-- Witness for C7 at a concrete dataset and absent filter values. -/
theorem c7_empty_selection_witness :
    filtered_df [recA] (some "X".data) none = [] ∧
    filtered_df [recA] none (some "Y".data) = [] ∧
    top_10_df (filtered_df [recA] (some "X".data) none) = [] ∧
    exposure_counts (filtered_df [recA] (some "X".data) none) = [] ∧
    scatter_set (filtered_df [recA] (some "X".data) none) = [] :=
  c7_empty_selection [recA] "X".data "Y".data (by decide) (by decide)

/-- C1: for every history of resolved turns, submitting a non-empty
query whose capability call raises an error yields exactly the old
history plus one appended turn carrying the original query text and the
answer `Error contacting Grok: <detail>`; the first k turns are
unchanged.  (`submitQuery` is a total function into histories, so the
error cannot propagate past the `try/except`.) -/
theorem c1_failure_isolation
    (svc : List Char → Except (List Char) (List Char)) (d : List Record)
    (freshId : List Char) (history : List ChatTurn) (q e : List Char)
    (hq : q ≠ []) (he : svc (buildContext d q) = .error e) :
    submitQuery svc d freshId history q
        = history ++ [⟨freshId, q, errMsgHead ++ e⟩] ∧
    (submitQuery svc d freshId history q).length = history.length + 1 ∧
    (submitQuery svc d freshId history q).take history.length = history := by
  have h : submitQuery svc d freshId history q
      = history ++ [⟨freshId, q, errMsgHead ++ e⟩] := by
    unfold submitQuery
    rw [if_neg hq, he]
  refine ⟨h, ?_, ?_⟩ <;> rw [h] <;> simp

/-- Witness for C1: a one-turn history, a failing capability. -/
theorem c1_failure_isolation_witness :
    submitQuery (fun _ => Except.error "boom".data) [] "id1".data [turn0] "hi".data
        = [turn0] ++ [⟨"id1".data, "hi".data, errMsgHead ++ "boom".data⟩] ∧
    (submitQuery (fun _ => Except.error "boom".data) [] "id1".data [turn0] "hi".data).length
        = [turn0].length + 1 ∧
    (submitQuery (fun _ => Except.error "boom".data) [] "id1".data [turn0] "hi".data).take
        [turn0].length = [turn0] :=
  c1_failure_isolation (fun _ => Except.error "boom".data) [] "id1".data [turn0]
    "hi".data "boom".data (by decide) rfl

/-- C8 counterexample: a blank — whitespace-only — query passes the
code's `if user_query:` guard (only the empty string is falsy), so the
capability is invoked and a new ChatTurn is appended: the history does
not stay unchanged. -/
theorem c8_blank_query_counterexample :
    submitQuery (fun _ => Except.ok "A".data) [] "id1".data [] " ".data ≠ [] := by
  decide

/-- C8 (amended): for every *empty* query submission, no ChatTurn is
created and the history is unchanged, whatever the answering capability
would reply — the result is independent of `svc`, so the capability is
never consulted. -/
theorem c8_empty_query_noop
    (svc : List Char → Except (List Char) (List Char)) (d : List Record)
    (freshId : List Char) (history : List ChatTurn) :
    submitQuery svc d freshId history [] = history := rfl

/-- C9: for every non-empty query, the context handed to the capability
is the fixed dataset-description preamble, then the first 5 rows of the
full normalized dataset rendered as text, then the literal user query;
it depends only on the first 5 rows of the full dataset and not on the
filter selections. -/
theorem c9_context_construction (raws : List RawRow)
    (selG selG' selE selE' : Option (List Char))
    (svc : List Char → Except (List Char) (List Char))
    (freshId : List Char) (history : List ChatTurn) (q : List Char)
    (hq : q ≠ []) :
    chatAfterFilters raws selG selE svc freshId history q
        = chatAfterFilters raws selG' selE' svc freshId history q ∧
    (∀ d d' : List Record, d.take 5 = d'.take 5 →
      buildContext d q = buildContext d' q) ∧
    buildContext (load_and_clean_data raws) q
        = contextPreamble ++ renderRows ((load_and_clean_data raws).take 5)
            ++ questionLabel ++ q ++ contextTail :=
  ⟨rfl, fun d d' h => by unfold buildContext; rw [h], rfl⟩

/-- Witness for C9 at concrete selections and query. -/
theorem c9_context_construction_witness :
    chatAfterFilters [rawQ] (some "x".data) none (fun _ => Except.ok []) "id1".data
        [] "why".data
      = chatAfterFilters [rawQ] none (some "y".data) (fun _ => Except.ok []) "id1".data
        [] "why".data ∧
    (∀ d d' : List Record, d.take 5 = d'.take 5 →
      buildContext d "why".data = buildContext d' "why".data) ∧
    buildContext (load_and_clean_data [rawQ]) "why".data
        = contextPreamble ++ renderRows ((load_and_clean_data [rawQ]).take 5)
            ++ questionLabel ++ "why".data ++ contextTail :=
  c9_context_construction [rawQ] (some "x".data) none (some "y".data) none
    (fun _ => Except.ok []) "id1".data [] "why".data (by decide)

lemma pyStrip_decomp (cs : List Char) :
    cs = cs.takeWhile Char.isWhitespace ++ pyStrip cs
      ++ ((cs.dropWhile Char.isWhitespace).reverse.takeWhile Char.isWhitespace).reverse := by
  conv_lhs => rw [← List.takeWhile_append_dropWhile Char.isWhitespace cs]
  rw [List.append_assoc]
  congr 1
  conv_lhs => rw [← List.reverse_reverse (cs.dropWhile Char.isWhitespace),
    ← List.takeWhile_append_dropWhile Char.isWhitespace
      (cs.dropWhile Char.isWhitespace).reverse]
  rw [List.reverse_append]
  rfl

lemma dropLeadQuote_decomp (cs : List Char) : ∃ a, cs = a ++ dropLeadQuote cs := by
  cases cs with
  | nil => exact ⟨[], rfl⟩
  | cons c t =>
    by_cases h : c = '"'
    · subst h
      exact ⟨['"'], rfl⟩
    · refine ⟨[], ?_⟩
      have hd : dropLeadQuote (c :: t) = c :: t := by
        unfold dropLeadQuote
        split
        · next heq =>
            rw [List.cons.injEq] at heq
            exact absurd heq.1 h
        · rfl
      rw [hd]
      rfl

lemma stripQuotes_decomp (cs : List Char) : ∃ a b, cs = a ++ stripQuotes cs ++ b := by
  obtain ⟨a, ha⟩ := dropLeadQuote_decomp cs
  obtain ⟨a', ha'⟩ := dropLeadQuote_decomp (dropLeadQuote cs).reverse
  refine ⟨a, a'.reverse, ?_⟩
  unfold stripQuotes
  conv_lhs => rw [ha]
  rw [List.append_assoc]
  congr 1
  conv_lhs => rw [← List.reverse_reverse (dropLeadQuote cs), ha']
  rw [List.reverse_append]

lemma cleanCell_decomp (cs : List Char) : ∃ a b, cs = a ++ cleanCell cs ++ b := by
  obtain ⟨a, b, h⟩ := stripQuotes_decomp (pyStrip cs)
  refine ⟨cs.takeWhile Char.isWhitespace ++ a,
    b ++ ((cs.dropWhile Char.isWhitespace).reverse.takeWhile Char.isWhitespace).reverse, ?_⟩
  conv_lhs => rw [pyStrip_decomp cs]
  conv_lhs => rw [h]
  unfold cleanCell
  simp [List.append_assoc]

/-- C5: string-cell normalization trims surrounding whitespace and
strips one leading and one trailing quote, anchored to the ends: the
cleaned value is always a contiguous interior slice of the raw cell
(interior characters untouched); `  "Engineer"  ` cleans to `Engineer`,
and records whose raw group cell was `"Engineer"`, ` Engineer ` or
`Engineer` all normalize to `Engineer` and are all matched by the
`Engineer` equality filter. -/
theorem c5_quote_whitespace_normalization (cs : List Char) :
    cleanCell "  \"Engineer\"  ".data = "Engineer".data ∧
    (∃ a b, cs = a ++ cleanCell cs ++ b) ∧
    (load_and_clean_data [rawEng1, rawEng2, rawEng3]).map (fun r => r.majorGroups)
        = ["Engineer".data, "Engineer".data, "Engineer".data] ∧
    filtered_df (load_and_clean_data [rawEng1, rawEng2, rawEng3])
        (some "Engineer".data) none
      = load_and_clean_data [rawEng1, rawEng2, rawEng3] :=
  ⟨by decide, cleanCell_decomp cs, by decide, by decide⟩

lemma dropWhile_ws_eq_self {cs : List Char} (h : goodEnd cs.head? = true) :
    cs.dropWhile Char.isWhitespace = cs := by
  cases cs with
  | nil => rfl
  | cons c t =>
    simp only [List.head?_cons, goodEnd, Bool.and_eq_true, Bool.not_eq_true'] at h
    rw [List.dropWhile_cons, if_neg (by rw [h.1]; exact Bool.false_ne_true)]

lemma dropLeadQuote_eq_self {cs : List Char} (h : goodEnd cs.head? = true) :
    dropLeadQuote cs = cs := by
  cases cs with
  | nil => rfl
  | cons c t =>
    simp only [List.head?_cons, goodEnd, Bool.and_eq_true, Bool.not_eq_true'] at h
    unfold dropLeadQuote
    split
    · next heq =>
        rw [List.cons.injEq] at heq
        rw [heq.1] at h
        simp at h
    · rfl

lemma cleanCell_eq_self {cs : List Char} (h : cleanFixed cs = true) :
    cleanCell cs = cs := by
  rw [cleanFixed, Bool.and_eq_true] at h
  have hrev : goodEnd cs.reverse.head? = true := by
    rw [List.head?_reverse]
    exact h.2
  unfold cleanCell pyStrip stripQuotes
  rw [dropWhile_ws_eq_self h.1, dropWhile_ws_eq_self hrev, List.reverse_reverse,
    dropLeadQuote_eq_self h.1, dropLeadQuote_eq_self hrev, List.reverse_reverse]

/-- C6 counterexample: normalization is not idempotent.  The raw group
cell `""x""` cleans to `"x"` in the first pass, and a second run of the
pipeline strips the newly exposed quote layer, changing the dataset. -/
theorem c6_not_idempotent_counterexample :
    normalizeTyped (load_and_clean_data [rawQ]) ≠ load_and_clean_data [rawQ] := by
  decide

/-- C6 (amended): a second run of the pipeline is a no-op on every
normalized dataset whose string cells neither begin nor end with
whitespace or a quote character; in general the second pass may strip a
further layer exposed by the first, so normalize is not a fixed point
on all inputs. -/
theorem c6_conditional_idempotence (raws : List RawRow)
    (h : ∀ r ∈ load_and_clean_data raws, cleanFixedRecord r = true) :
    normalizeTyped (load_and_clean_data raws) = load_and_clean_data raws := by
  unfold normalizeTyped
  conv_rhs => rw [← List.map_id (load_and_clean_data raws)]
  apply List.map_congr_left
  intro r hr
  have hr' := h r hr
  rw [cleanFixedRecord, Bool.and_eq_true, Bool.and_eq_true] at hr'
  unfold cleanRecord
  cases r
  simp only [id]
  rw [cleanCell_eq_self hr'.1.1, cleanCell_eq_self hr'.1.2, cleanCell_eq_self hr'.2]

/-- Witness for C6 (amended) at a clean-stable dataset. -/
theorem c6_conditional_idempotence_witness :
    normalizeTyped (load_and_clean_data [rawEng3]) = load_and_clean_data [rawEng3] :=
  c6_conditional_idempotence [rawEng3] (by decide)

lemma top10_idx_pairwise_key (view : List Record) :
    (top_10_idx view).Pairwise scoreKey :=
  (List.sorted_insertionSort scoreKey view.enum).sublist
    (List.take_sublist 10 (List.insertionSort scoreKey view.enum))

lemma top10_idx_nodup_fst (view : List Record) :
    ((top_10_idx view).map Prod.fst).Nodup := by
  have hperm : List.Perm (List.insertionSort scoreKey view.enum) view.enum :=
    List.perm_insertionSort scoreKey view.enum
  have h1 : ((List.insertionSort scoreKey view.enum).map Prod.fst).Nodup := by
    rw [(hperm.map Prod.fst).nodup_iff, List.enum_map_fst]
    exact List.nodup_range view.length
  exact h1.sublist
    ((List.take_sublist 10 (List.insertionSort scoreKey view.enum)).map Prod.fst)

lemma top10_idx_pairwise_strict (view : List Record) :
    (top_10_idx view).Pairwise (fun p q =>
      q.2.averageScore < p.2.averageScore ∨
        (p.2.averageScore = q.2.averageScore ∧ p.1 < q.1)) := by
  have hne : (top_10_idx view).Pairwise (fun p q => p.1 ≠ q.1) :=
    List.pairwise_map.mp (top10_idx_nodup_fst view)
  refine ((top10_idx_pairwise_key view).and hne).imp ?_
  rintro p q ⟨hk | ⟨he, hle⟩, hne⟩
  · exact Or.inl hk
  · exact Or.inr ⟨he, lt_of_le_of_ne hle hne⟩

lemma top10_idx_mem (view : List Record) :
    ∀ p ∈ top_10_idx view, view[p.1]? = some p.2 := by
  intro p hp
  have h1 : p ∈ List.insertionSort scoreKey view.enum :=
    (List.take_sublist 10 (List.insertionSort scoreKey view.enum)).subset hp
  have h2 : p ∈ view.enum :=
    (List.perm_insertionSort scoreKey view.enum).subset h1
  exact List.mem_enum_iff_getElem?.mp h2

/-- C3 counterexample: on a two-record view with ascending scores, the
top-10 derivation reorders the records, so the returned sequence is not
a subsequence of the view (it is only a permutation of one). -/
theorem c3_not_subsequence_counterexample :
    top_10_df [recA, recB] = [recB, recA] ∧
    ¬ List.Sublist (top_10_df [recA, recB]) [recA, recB] := by
  constructor <;> decide

/-- C3 (amended): for every view of size M, the top-10 derivation
returns `min M 10` records, sorted descending by `average_score` with
ties broken by ascending original position (stable), every returned
index-tagged record is a row of the view at that position, and the
returned records form a sub-permutation of the view — though, being
reordered by score, not necessarily a subsequence. -/
theorem c3_top10_ranking (view : List Record) :
    (top_10_df view).length = min view.length 10 ∧
    (top_10_df view).Pairwise (fun a b => b.averageScore ≤ a.averageScore) ∧
    top_10_df view = (top_10_idx view).map Prod.snd ∧
    (∀ p ∈ top_10_idx view, view[p.1]? = some p.2) ∧
    (top_10_idx view).Pairwise (fun p q =>
      q.2.averageScore < p.2.averageScore ∨
        (p.2.averageScore = q.2.averageScore ∧ p.1 < q.1)) ∧
    List.Subperm (top_10_df view) view := by
  refine ⟨?_, ?_, rfl, top10_idx_mem view, top10_idx_pairwise_strict view, ?_⟩
  · unfold top_10_df top_10_idx
    rw [List.length_map, List.length_take, List.length_insertionSort,
      List.enum_length, Nat.min_comm]
  · refine (List.pairwise_map.mpr ((top10_idx_pairwise_strict view).imp ?_))
    rintro p q (hk | ⟨he, _⟩)
    · exact le_of_lt hk
    · exact le_of_eq he.symm
  · have hsub : List.Sublist (top_10_df view)
        ((List.insertionSort scoreKey view.enum).map Prod.snd) :=
      (List.take_sublist 10 (List.insertionSort scoreKey view.enum)).map Prod.snd
    have hperm : List.Perm ((List.insertionSort scoreKey view.enum).map Prod.snd) view := by
      have h := (List.perm_insertionSort scoreKey view.enum).map Prod.snd
      rwa [List.enum_map_snd] at h
    exact hsub.subperm.trans hperm.subperm

end Ilo
